import Mathlib

/-!
Verification of the portfolio-accounting core of a stock-tracker web app
(`app.py`).  Python numbers (floats) are modelled as exact rationals `ℚ`;
Python `int()` truncation is `pyInt`; `round(x, 2)` is `round2`
(banker's rounding, as Python's `round`).  Python dicts are modelled as
insertion-ordered association lists (`List (String × α)`) with `upsertA`
(assignment `d[k] = v`, which keeps the position of an existing key and
appends a new one) and `lookupA` (`d.get(k)`).
-/

set_option maxHeartbeats 1000000

namespace StockTracker

/-- Python `int()` on a rational: truncation toward zero. -/
def pyInt (q : ℚ) : ℤ := if q < 0 then ⌈q⌉ else ⌊q⌋

/-- Round a rational to the nearest integer, ties to even
(Python's `round` with no digits). -/
def roundHalfEven (q : ℚ) : ℤ :=
  let f := ⌊q⌋
  let r := q - (f : ℚ)
  if r < 1/2 then f
  else if 1/2 < r then f + 1
  else if f % 2 = 0 then f else f + 1

/-- Python `round(q, 2)`. -/
def round2 (q : ℚ) : ℚ := (roundHalfEven (q * 100) : ℚ) / 100

/-- Model of `d.get(key)` on an insertion-ordered association list. -/
def lookupA {α : Type} : List (String × α) → String → Option α
  | [], _ => none
  | (c, s) :: rest, key => if c = key then some s else lookupA rest key

/-- Model of `d[key] = f (d.get(key))` on an insertion-ordered association list:
replaces the first binding of `key` in place, or appends a new one. -/
def upsertA {α : Type} : List (String × α) → String → (Option α → α) → List (String × α)
  | [], key, f => [(key, f none)]
  | (c, s) :: rest, key, f =>
      if c = key then (c, f (some s)) :: rest else (c, s) :: upsertA rest key f

/-- The characters before the first `'.'`. -/
def takeUntilDot : List Char → List Char
  | [] => []
  | c :: cs => if c = '.' then [] else c :: takeUntilDot cs

/-- Model of `full_code.split('.')[0]`: everything before the first dot (the
whole string when there is no dot). -/
def baseCode (full_code : String) : String := ⟨takeUntilDot full_code.data⟩

/-- Python `s.endswith(p)`. -/
def strEndsWith (s p : String) : Bool := p.data.isSuffixOf s.data

/-- One row of the transaction ledger (a row of the 交易紀錄 sheet as read by
`get_transactions_from_google_sheet`). -/
structure Tx where
  Date : String
  Stock_Code : String
  Stock_Name : String
  Type' : String
  Quantity : ℚ
  Price : ℚ
  Fee : ℚ
  Tax : ℚ
  deriving DecidableEq

/-- The per-security running state built by the loop in
`get_portfolio_summary` (`stock_status[full_code]`). -/
structure StockStatus where
  name : String
  quantity : ℚ
  total_buy_cost : ℚ
  total_sell_revenue : ℚ
  total_fee_tax : ℚ
  buy_quantity : ℚ
  sell_quantity : ℚ
  realized_profit : ℚ
  is_otc : Bool
  deriving DecidableEq

/-- The fresh entry created when a code is first seen
(`if full_code not in stock_status: ...`). -/
def initStatus (row : Tx) : StockStatus :=
  { name := row.Stock_Name
    quantity := 0
    total_buy_cost := 0
    total_sell_revenue := 0
    total_fee_tax := 0
    buy_quantity := 0
    sell_quantity := 0
    realized_profit := 0
    is_otc := strEndsWith row.Stock_Code ".TWO" }

/-- The body of the transaction loop of `get_portfolio_summary`
(`if row["Type"] == "Buy": ... else: ...`), applied to the state of
`row`'s security. -/
def applyTx (s : StockStatus) (row : Tx) : StockStatus :=
  if row.Type' = "Buy" then
    { s with
        quantity := s.quantity + row.Quantity
        total_buy_cost := s.total_buy_cost + row.Quantity * row.Price + row.Fee + row.Tax
        buy_quantity := s.buy_quantity + row.Quantity
        total_fee_tax := s.total_fee_tax + row.Fee + row.Tax }
  else
    let s1 :=
      { s with
          quantity := s.quantity - row.Quantity
          total_sell_revenue := s.total_sell_revenue + row.Quantity * row.Price - row.Fee - row.Tax
          sell_quantity := s.sell_quantity + row.Quantity
          total_fee_tax := s.total_fee_tax + row.Fee + row.Tax }
    let avg_buy_price := if 0 < s1.buy_quantity then s1.total_buy_cost / s1.buy_quantity else 0
    { s1 with
        realized_profit :=
          s1.realized_profit + ((row.Price - avg_buy_price) * row.Quantity - row.Fee - row.Tax) }

/-- One iteration of the transaction loop over the whole `stock_status` dict. -/
def stepStatus (acc : List (String × StockStatus)) (row : Tx) : List (String × StockStatus) :=
  upsertA acc row.Stock_Code (fun o => applyTx (o.getD (initStatus row)) row)

/-- The transaction loop of `get_portfolio_summary`: reduce the ledger into
the `stock_status` dict. -/
def reduceTxs (txs : List Tx) : List (String × StockStatus) :=
  txs.foldl stepStatus []

/-- One line of the summary returned by `get_portfolio_summary`
(the dict appended to `result`). -/
structure PortfolioLine where
  Stock_Code : String
  Stock_Name : String
  Quantity : ℤ
  Avg_Buy_Price : ℚ
  Current_Price : ℚ
  Total_Cost : ℤ
  Market_Value : ℤ
  Unrealized_Profit : ℤ
  Realized_Profit : ℤ
  Full_Code : String
  deriving DecidableEq

/-- Value `current_price` of the result loop of `get_portfolio_summary`:
`fetch_stock_info` is consulted only when the held quantity is positive.
The price resolver is abstracted as a function `priceOf` giving the
`"price"` field `fetch_stock_info(full_code)` would return. -/
def lineCurrentPrice (priceOf : String → ℚ) (e : String × StockStatus) : ℚ :=
  if 0 < e.2.quantity then priceOf e.1 else 0

/-- Value `avg_buy_price` of the result loop of `get_portfolio_summary`. -/
def lineAvgBuyPrice (e : String × StockStatus) : ℚ :=
  if 0 < e.2.buy_quantity then e.2.total_buy_cost / e.2.buy_quantity else 0

/-- Value `market_value` of the result loop of `get_portfolio_summary`. -/
def lineMarketValue (priceOf : String → ℚ) (e : String × StockStatus) : ℚ :=
  e.2.quantity * lineCurrentPrice priceOf e

/-- Value `unrealized_profit` of the result loop of `get_portfolio_summary`. -/
def lineUnrealized (priceOf : String → ℚ) (e : String × StockStatus) : ℚ :=
  if 0 < e.2.quantity then (lineCurrentPrice priceOf e - lineAvgBuyPrice e) * e.2.quantity else 0

/-- Value `current_cost` of the result loop of `get_portfolio_summary`. -/
def lineCurrentCost (e : String × StockStatus) : ℚ :=
  if 0 < e.2.quantity then lineAvgBuyPrice e * e.2.quantity else 0

/-- The dict appended to `result` for one `stock_status` entry. -/
def mkLine (priceOf : String → ℚ) (e : String × StockStatus) : PortfolioLine :=
  { Stock_Code := baseCode e.1
    Stock_Name := e.2.name
    Quantity := pyInt e.2.quantity
    Avg_Buy_Price := round2 (lineAvgBuyPrice e)
    Current_Price := round2 (lineCurrentPrice priceOf e)
    Total_Cost := pyInt (lineCurrentCost e)
    Market_Value := pyInt (lineMarketValue priceOf e)
    Unrealized_Profit := pyInt (lineUnrealized priceOf e)
    Realized_Profit := pyInt e.2.realized_profit
    Full_Code := e.1 }

/-- Model of `get_portfolio_summary(transactions)`, returning
`(result, total_quantity, total_cost, total_market_value,
total_unrealized_profit, total_realized_profit)`.  The totals mirror the
`total_... +=` accumulations of the result loop. -/
def getPortfolioSummary (priceOf : String → ℚ) (txs : List Tx) :
    List PortfolioLine × ℚ × ℚ × ℚ × ℚ × ℚ :=
  if txs = [] then ([], 0, 0, 0, 0, 0)
  else
    let st := reduceTxs txs
    (st.map (mkLine priceOf),
     st.foldl (fun a e => a + e.2.quantity) 0,
     st.foldl (fun a e => a + lineCurrentCost e) 0,
     st.foldl (fun a e => a + lineMarketValue priceOf e) 0,
     st.foldl (fun a e => a + lineUnrealized priceOf e) 0,
     st.foldl (fun a e => a + e.2.realized_profit) 0)

/-! ### Price resolution (`fetch_stock_info`)

The function attributes `fetch_stock_info.google_sheets_prices` and
`fetch_stock_info.cache` become an explicit `PriceState`; `time.time()`
becomes the argument `now`; the `stock_names.csv` mapping
(`load_stock_names`) becomes `stock_names`; the yfinance call becomes
`yahoo : String → Option ℚ`, where `none` stands for both an exception
and an empty history (in the source both leave `price` at `0`). -/

/-- The `"price"`/`"name"` dict returned by `fetch_stock_info`. -/
structure StockInfo where
  price : ℚ
  name : String
  deriving DecidableEq

/-- A `fetch_stock_info.cache` entry: `{'timestamp': ..., 'data': ...}`. -/
structure CacheEntry where
  timestamp : ℚ
  data : StockInfo
  deriving DecidableEq

/-- The mutable state attached to `fetch_stock_info`. -/
structure PriceState where
  google_sheets_prices : List (String × ℚ)
  cache : List (String × CacheEntry)
  deriving DecidableEq

/-- The secondary-snapshot tier of `fetch_stock_info`:
`price = 0; if ...google_sheets_prices: price = ....get(full_code, 0)`. -/
def gsLookupPrice (prices : List (String × ℚ)) (full_code : String) : ℚ :=
  if prices.isEmpty then 0 else (lookupA prices full_code).getD 0

/-- The snapshot tier followed by the yfinance fallback:
`if price == 0: try ... price = hist["Close"].iloc[-1] ... except: price = 0`. -/
def resolvePrice (yahoo : String → Option ℚ) (st : PriceState) (full_code : String) : ℚ :=
  let price := gsLookupPrice st.google_sheets_prices full_code
  if price = 0 then (yahoo full_code).getD 0 else price

/-- The cache-miss tail of `fetch_stock_info`: name lookup, price
resolution, rounding, and the cache write at timestamp `now`. -/
def fetchFresh (stock_names : String → String → Option String) (yahoo : String → Option ℚ)
    (now : ℚ) (st : PriceState) (full_code code market_key : String) :
    StockInfo × PriceState :=
  let name := (stock_names code market_key).getD "未知名稱"
  let price := resolvePrice yahoo st full_code
  let result : StockInfo := { price := round2 price, name := name }
  (result, { st with cache := upsertA st.cache full_code (fun _ => ⟨now, result⟩) })

/-- Model of `fetch_stock_info(full_code)`: the result dict and the updated
state.  (The source also computes `is_otc`, which it never uses; it is
omitted.) -/
def fetch_stock_info (stock_names : String → String → Option String)
    (yahoo : String → Option ℚ) (now : ℚ) (st : PriceState) (full_code : String) :
    StockInfo × PriceState :=
  let code := baseCode full_code
  let market_key := if strEndsWith full_code ".TWO" then "TWO" else "TWSE"
  match lookupA st.cache full_code with
  | some cached_data =>
      if now - cached_data.timestamp < 1800 then (cached_data.data, st)
      else fetchFresh stock_names yahoo now st full_code code market_key
  | none => fetchFresh stock_names yahoo now st full_code code market_key

/-! ### The normal entry path (`index`, action `add_transaction`)

Form fields arrive as strings; `quantity`/`price` are modelled as
`Option ℚ`, where `none` stands for a missing or empty field and also for
a non-numeric one (in the source `float(...)` raises `ValueError`, which
is caught and reported as an error, so in every `none` case the submission
is rejected and nothing is appended). -/

/-- Python `%` on rationals with a positive modulus (floored remainder). -/
def pyMod (a b : ℚ) : ℚ := a - b * (⌊a / b⌋ : ℤ)

/-- The parsed form of an `add_transaction` submission. -/
structure EntryForm where
  date : String
  code : String
  name : String
  market : String
  ty : String
  quantity : Option ℚ
  price : Option ℚ
  deriving DecidableEq

/-- The `new_transaction` dict built after validation succeeds:
`fee = max(20, price * quantity * 0.001425)`;
`tax = price * quantity * 0.003 if trans_type == "Sell" else 0`;
the code gets a `.TWO` or `.TW` suffix from the market. -/
def mkEntryTx (f : EntryForm) (q p : ℚ) : Tx :=
  let fee := max 20 (p * q * (1425 / 1000000))
  let tax := if f.ty = "Sell" then p * q * (3 / 1000) else 0
  let code_with_suffix := if f.market = "TWO" then f.code ++ ".TWO" else f.code ++ ".TW"
  { Date := f.date
    Stock_Code := code_with_suffix
    Stock_Name := f.name
    Type' := f.ty
    Quantity := q
    Price := p
    Fee := fee
    Tax := tax }

/-- The validation chain of the `add_transaction` action: the transaction
that would be appended to the ledger, or the error message flashed. -/
def addTransaction (f : EntryForm) : Except String Tx :=
  if f.code = "" then .error "股票代碼不能為空"
  else
    match f.quantity with
    | none => .error "股數必須為正數"
    | some q =>
        if q ≤ 0 then .error "股數必須為正數"
        else if pyMod q 1000 ≠ 0 then .error "股數必須為1000的倍數"
        else
          match f.price with
          | none => .error "每股價格必須為正數"
          | some p =>
              if p ≤ 0 then .error "每股價格必須為正數"
              else .ok (mkEntryTx f q p)

/-! ### Refinement layer for the ledger reduction

`LedgerNums` projects out the numeric fields of `StockStatus` that the
specification's reduction rules speak about.  `codeNumsStep` is the
numeric content of `applyTx` (translated from the source);
`specStep` is written from the specification's wording of the Buy/Sell
rules, whose only difference is how the average-buy-price guard is
phrased (`cumulative_buy_quantity == 0` versus the source's
`buy_quantity > 0`). -/

structure LedgerNums where
  qty : ℚ
  buyCost : ℚ
  buyQty : ℚ
  sellRev : ℚ
  sellQty : ℚ
  realized : ℚ
  deriving DecidableEq

/-- The numeric fields of a running per-security state. -/
def StockStatus.nums (s : StockStatus) : LedgerNums :=
  ⟨s.quantity, s.total_buy_cost, s.buy_quantity, s.total_sell_revenue,
   s.sell_quantity, s.realized_profit⟩

/-- The numeric fields of a freshly created state. -/
def numsZero : LedgerNums := ⟨0, 0, 0, 0, 0, 0⟩

/-- The numeric content of `applyTx` (source side). -/
def codeNumsStep (n : LedgerNums) (t : Tx) : LedgerNums :=
  if t.Type' = "Buy" then
    { n with
        qty := n.qty + t.Quantity
        buyCost := n.buyCost + t.Quantity * t.Price + t.Fee + t.Tax
        buyQty := n.buyQty + t.Quantity }
  else
    let avg := if 0 < n.buyQty then n.buyCost / n.buyQty else 0
    { n with
        qty := n.qty - t.Quantity
        sellRev := n.sellRev + t.Quantity * t.Price - t.Fee - t.Tax
        sellQty := n.sellQty + t.Quantity
        realized := n.realized + ((t.Price - avg) * t.Quantity - t.Fee - t.Tax) }

/-- The Buy/Sell reduction rules as the specification words them:
on Buy add `quantity` to the held quantity, `quantity*unit_price + fee + tax`
to the cumulative buy cost and `quantity` to the cumulative buy quantity;
on Sell subtract `quantity`, add `quantity*unit_price - fee - tax` to the
cumulative sell revenue, add `quantity` to the cumulative sell quantity and
add `(unit_price - average_buy_price)*quantity - fee - tax` to the realized
profit, where `average_buy_price` is the cumulative buy cost over the
cumulative buy quantity, or `0` when the cumulative buy quantity is `0`. -/
def specStep (n : LedgerNums) (t : Tx) : LedgerNums :=
  if t.Type' = "Buy" then
    { n with
        qty := n.qty + t.Quantity
        buyCost := n.buyCost + (t.Quantity * t.Price + t.Fee + t.Tax)
        buyQty := n.buyQty + t.Quantity }
  else
    let avg := if n.buyQty = 0 then 0 else n.buyCost / n.buyQty
    { n with
        qty := n.qty - t.Quantity
        sellRev := n.sellRev + (t.Quantity * t.Price - t.Fee - t.Tax)
        sellQty := n.sellQty + t.Quantity
        realized := n.realized + ((t.Price - avg) * t.Quantity - t.Fee - t.Tax) }

theorem lookupA_upsertA {α : Type} (l : List (String × α)) (key code : String)
    (f : Option α → α) :
    lookupA (upsertA l key f) code =
      if key = code then some (f (lookupA l key)) else lookupA l code := by
  induction l with
  | nil => simp [upsertA, lookupA]
  | cons hd tl ih =>
      obtain ⟨c, s⟩ := hd
      by_cases hc : c = key
      · subst hc
        by_cases h2 : c = code <;> simp [upsertA, lookupA, h2]
      · by_cases h2 : c = code
        · subst h2
          have hk : ¬ key = c := fun h => hc h.symm
          simp [upsertA, lookupA, hc, hk]
        · simp [upsertA, lookupA, hc, h2, ih]

theorem lookupA_stepStatus (l : List (String × StockStatus)) (t : Tx) (code : String) :
    lookupA (stepStatus l t) code =
      if t.Stock_Code = code then
        some (applyTx ((lookupA l t.Stock_Code).getD (initStatus t)) t)
      else lookupA l code := by
  simp [stepStatus, lookupA_upsertA]

theorem nums_initStatus (t : Tx) : (initStatus t).nums = numsZero := rfl

theorem nums_applyTx (s : StockStatus) (t : Tx) :
    (applyTx s t).nums = codeNumsStep s.nums t := by
  by_cases h : t.Type' = "Buy" <;> simp [applyTx, codeNumsStep, StockStatus.nums, h]

theorem lookupA_foldl_stepStatus (txs : List Tx) (l : List (String × StockStatus))
    (code : String) :
    Option.map StockStatus.nums (lookupA (txs.foldl stepStatus l) code) =
      (txs.filter (fun t => t.Stock_Code = code)).foldl
        (fun o t => some (codeNumsStep (o.getD numsZero) t))
        (Option.map StockStatus.nums (lookupA l code)) := by
  induction txs generalizing l with
  | nil => simp
  | cons t rest ih =>
      rw [List.foldl_cons, ih]
      by_cases h : t.Stock_Code = code
      · rw [List.filter_cons_of_pos (by simp [h]), List.foldl_cons]
        congr 1
        rw [lookupA_stepStatus]
        simp only [h, if_pos, Option.map_some, nums_applyTx]
        cases hl : lookupA l code <;>
          simp [hl, nums_initStatus, nums_applyTx]
      · rw [List.filter_cons_of_neg (by simp [h])]
        congr 1
        rw [lookupA_stepStatus, if_neg h]

theorem codeNumsStep_eq_specStep (n : LedgerNums) (t : Tx) (h : 0 ≤ n.buyQty) :
    codeNumsStep n t = specStep n t := by
  by_cases hb : t.Type' = "Buy"
  · simp [codeNumsStep, specStep, hb, add_assoc]
  · rcases eq_or_lt_of_le h with h0 | h0
    · simp [codeNumsStep, specStep, hb, ← h0, add_sub_assoc]
    · simp [codeNumsStep, specStep, hb, h0, ne_of_gt h0, add_sub_assoc]

theorem specStep_buyQty_nonneg (n : LedgerNums) (t : Tx) (hn : 0 ≤ n.buyQty)
    (hq : 0 ≤ t.Quantity) : 0 ≤ (specStep n t).buyQty := by
  by_cases hb : t.Type' = "Buy" <;> simp [specStep, hb]
  · exact add_nonneg hn hq
  · exact hn

theorem foldl_codeNumsStep_eq_specStep (ts : List Tx) (o : Option LedgerNums)
    (hts : ∀ t ∈ ts, 0 ≤ t.Quantity) (ho : 0 ≤ (o.getD numsZero).buyQty) :
    ts.foldl (fun o t => some (codeNumsStep (o.getD numsZero) t)) o =
      ts.foldl (fun o t => some (specStep (o.getD numsZero) t)) o := by
  induction ts generalizing o with
  | nil => rfl
  | cons t rest ih =>
      rw [List.foldl_cons, List.foldl_cons, codeNumsStep_eq_specStep _ _ ho]
      exact ih _ (fun x hx => hts x (List.mem_cons_of_mem _ hx))
        (by
          simpa using specStep_buyQty_nonneg _ _ ho
            (hts t (List.mem_cons_self _ _)))

/-! ## Claims -/

/-- C1: for every ordered transaction list (with the data model's
non-negative quantities), the ledger reduction is a single left-to-right
pass per security code: the state recorded for `code` is the left fold of
the specification's Buy/Sell rules (`specStep`) over the transactions of
that `code`, in order, starting from the all-zero state (`none` when the
code never occurs). -/
theorem ledger_single_pass (txs : List Tx) (code : String)
    (h : ∀ t ∈ txs, 0 ≤ t.Quantity) :
    Option.map StockStatus.nums (lookupA (reduceTxs txs) code) =
      (txs.filter (fun t => t.Stock_Code = code)).foldl
        (fun o t => some (specStep (o.getD numsZero) t)) none := by
  have h1 := lookupA_foldl_stepStatus txs [] code
  simp only [lookupA, Option.map_none'] at h1
  rw [reduceTxs, h1]
  exact foldl_codeNumsStep_eq_specStep _ _
    (fun t ht => h t (List.mem_of_mem_filter ht)) (by simp [numsZero])

theorem ledger_single_pass_witness :
    Option.map StockStatus.nums
        (lookupA
          (reduceTxs
            [⟨"2024-01-01", "2330.TW", "tsmc", "Buy", 1000, 10, 20, 0⟩,
             ⟨"2024-01-02", "2330.TW", "tsmc", "Sell", 1000, 12, 20, 36⟩,
             ⟨"2024-01-03", "2603.TW", "evergreen", "Buy", 2000, 30, 85, 0⟩])
          "2330.TW") =
      ([⟨"2024-01-01", "2330.TW", "tsmc", "Buy", 1000, 10, 20, 0⟩,
        ⟨"2024-01-02", "2330.TW", "tsmc", "Sell", 1000, 12, 20, 36⟩,
        ⟨"2024-01-03", "2603.TW", "evergreen", "Buy", 2000, 30, 85, 0⟩].filter
          (fun t => t.Stock_Code = "2330.TW")).foldl
        (fun o t => some (specStep (o.getD numsZero) t)) none :=
  ledger_single_pass _ _ (by intro t ht; fin_cases ht <;> norm_num)

/-- C2: for Buy(1000 @ 10, fee 20, tax 0) then Sell(1000 @ 12, fee 20,
tax 36) on one security, the summary reports average buy price 10.02,
realized profit 1924, held quantity 0, current cost basis (`Total_Cost`) 0
and unrealized profit 0 (the whole output is pinned down, for every price
resolver). -/
theorem summary_worked_example (priceOf : String → ℚ) :
    getPortfolioSummary priceOf
        [⟨"2024-01-01", "2330.TW", "台積電", "Buy", 1000, 10, 20, 0⟩,
         ⟨"2024-01-02", "2330.TW", "台積電", "Sell", 1000, 12, 20, 36⟩] =
      ([{ Stock_Code := "2330", Stock_Name := "台積電", Quantity := 0,
          Avg_Buy_Price := 10.02, Current_Price := 0, Total_Cost := 0,
          Market_Value := 0, Unrealized_Profit := 0, Realized_Profit := 1924,
          Full_Code := "2330.TW" }], 0, 0, 0, 0, 1924) := by
  have hb : baseCode "2330.TW" = "2330" := by decide
  have hs : ("Sell" : String) ≠ "Buy" := by decide
  norm_num [getPortfolioSummary, reduceTxs, stepStatus, upsertA, applyTx, initStatus,
    mkLine, lineCurrentPrice, lineAvgBuyPrice, lineMarketValue, lineUnrealized,
    lineCurrentCost, pyInt, round2, roundHalfEven, hb, hs]
  exact List.cons_ne_nil _ _

theorem summary_worked_example_witness :
    getPortfolioSummary (fun _ => 0)
        [⟨"2024-01-01", "2330.TW", "台積電", "Buy", 1000, 10, 20, 0⟩,
         ⟨"2024-01-02", "2330.TW", "台積電", "Sell", 1000, 12, 20, 36⟩] =
      ([{ Stock_Code := "2330", Stock_Name := "台積電", Quantity := 0,
          Avg_Buy_Price := 10.02, Current_Price := 0, Total_Cost := 0,
          Market_Value := 0, Unrealized_Profit := 0, Realized_Profit := 1924,
          Full_Code := "2330.TW" }], 0, 0, 0, 0, 1924) :=
  summary_worked_example (fun _ => 0)

/-- When no unexpired cache entry exists, `fetch_stock_info` runs its
fresh-resolution tail. -/
theorem fetch_stock_info_miss (stock_names : String → String → Option String)
    (yahoo : String → Option ℚ) (now : ℚ) (st : PriceState) (full_code : String)
    (h : ∀ e, lookupA st.cache full_code = some e → ¬ now - e.timestamp < 1800) :
    fetch_stock_info stock_names yahoo now st full_code =
      fetchFresh stock_names yahoo now st full_code (baseCode full_code)
        (if strEndsWith full_code ".TWO" then "TWO" else "TWSE") := by
  unfold fetch_stock_info
  cases hc : lookupA st.cache full_code with
  | none => rfl
  | some e => simp [h e hc]

/-- C3: when no unexpired cache entry exists, the resolved price is the
secondary-snapshot value when it is present and non-zero, and otherwise the
live-quote fallback's close price with failure or an empty result treated
as 0; the result is stored in the cache under the current timestamp and
returned rounded to 2 decimal places.  (The model is total: a fallback
failure is the `none` value of `yahoo`, never a propagated error.) -/
theorem price_resolution_tiers (stock_names : String → String → Option String)
    (yahoo : String → Option ℚ) (now : ℚ) (st : PriceState) (full_code : String)
    (h : ∀ e, lookupA st.cache full_code = some e → ¬ now - e.timestamp < 1800) :
    (fetch_stock_info stock_names yahoo now st full_code).1.price =
      round2 (if gsLookupPrice st.google_sheets_prices full_code ≠ 0
              then gsLookupPrice st.google_sheets_prices full_code
              else (yahoo full_code).getD 0) ∧
    lookupA (fetch_stock_info stock_names yahoo now st full_code).2.cache full_code =
      some ⟨now, (fetch_stock_info stock_names yahoo now st full_code).1⟩ ∧
    (fetch_stock_info stock_names yahoo now st full_code).2.google_sheets_prices =
      st.google_sheets_prices := by
  rw [fetch_stock_info_miss stock_names yahoo now st full_code h]
  refine ⟨?_, ?_, rfl⟩
  · show round2 (resolvePrice yahoo st full_code) = _
    unfold resolvePrice
    by_cases hz : gsLookupPrice st.google_sheets_prices full_code = 0 <;> simp [hz]
  · simp [fetchFresh, lookupA_upsertA]

theorem price_resolution_tiers_witness :
    (fetch_stock_info (fun _ _ => none) (fun _ => none) 1000
        ⟨[("2330.TW", 595)], []⟩ "2330.TW").1.price =
      round2 (if gsLookupPrice [("2330.TW", 595)] "2330.TW" ≠ 0
              then gsLookupPrice [("2330.TW", 595)] "2330.TW"
              else ((fun _ => none) "2330.TW").getD 0) ∧
    lookupA (fetch_stock_info (fun _ _ => none) (fun _ => none) 1000
        ⟨[("2330.TW", 595)], []⟩ "2330.TW").2.cache "2330.TW" =
      some ⟨1000, (fetch_stock_info (fun _ _ => none) (fun _ => none) 1000
        ⟨[("2330.TW", 595)], []⟩ "2330.TW").1⟩ ∧
    (fetch_stock_info (fun _ _ => none) (fun _ => none) 1000
        ⟨[("2330.TW", 595)], []⟩ "2330.TW").2.google_sheets_prices =
      [("2330.TW", 595)] :=
  price_resolution_tiers (fun _ _ => none) (fun _ => none) 1000
    ⟨[("2330.TW", 595)], []⟩ "2330.TW" (by intro e he; simp [lookupA] at he)

/-- C6: a price cached at time `T` and re-requested strictly less than
30 minutes (1800 s) later is returned unchanged, with the state untouched
and without consulting the snapshot or the fallback provider (the result
is the same for every snapshot and every provider); re-requested at or
after 30 minutes, the price is freshly resolved through the tiers and
re-cached at the current time. -/
theorem price_cache_expiry (stock_names : String → String → Option String)
    (yahoo : String → Option ℚ) (now : ℚ) (st : PriceState) (full_code : String)
    (e : CacheEntry) (hl : lookupA st.cache full_code = some e) :
    (now - e.timestamp < 1800 →
      fetch_stock_info stock_names yahoo now st full_code = (e.data, st) ∧
      ∀ (names2 : String → String → Option String) (yahoo2 : String → Option ℚ)
        (gs2 : List (String × ℚ)),
        fetch_stock_info names2 yahoo2 now
            { st with google_sheets_prices := gs2 } full_code =
          (e.data, { st with google_sheets_prices := gs2 })) ∧
    (1800 ≤ now - e.timestamp →
      (fetch_stock_info stock_names yahoo now st full_code).1.price =
        round2 (resolvePrice yahoo st full_code) ∧
      lookupA (fetch_stock_info stock_names yahoo now st full_code).2.cache full_code =
        some ⟨now, (fetch_stock_info stock_names yahoo now st full_code).1⟩) := by
  constructor
  · intro hhit
    constructor
    · unfold fetch_stock_info
      simp [hl, hhit]
    · intro names2 yahoo2 gs2
      unfold fetch_stock_info
      simp [show lookupA ({ st with google_sheets_prices := gs2 } : PriceState).cache
          full_code = some e from hl, hhit]
  · intro hexp
    have hmiss : ∀ e2, lookupA st.cache full_code = some e2 → ¬ now - e2.timestamp < 1800 := by
      intro e2 he2
      rw [hl] at he2
      cases he2
      exact not_lt.mpr hexp
    rw [fetch_stock_info_miss stock_names yahoo now st full_code hmiss]
    constructor
    · rfl
    · simp [fetchFresh, lookupA_upsertA]

theorem price_cache_expiry_witness :
    fetch_stock_info (fun _ _ => none) (fun _ => none) 1740
        ⟨[], [("2330.TW", ⟨0, ⟨10, "n"⟩⟩)]⟩ "2330.TW" =
      (⟨10, "n"⟩, ⟨[], [("2330.TW", ⟨0, ⟨10, "n"⟩⟩)]⟩) ∧
    (fetch_stock_info (fun _ _ => none) (fun _ => none) 1860
        ⟨[], [("2330.TW", ⟨0, ⟨10, "n"⟩⟩)]⟩ "2330.TW").1.price =
      round2 (resolvePrice (fun _ => none)
        ⟨[], [("2330.TW", ⟨0, ⟨10, "n"⟩⟩)]⟩ "2330.TW") :=
  ⟨((price_cache_expiry (fun _ _ => none) (fun _ => none) 1740
      ⟨[], [("2330.TW", ⟨0, ⟨10, "n"⟩⟩)]⟩ "2330.TW" ⟨0, ⟨10, "n"⟩⟩
      (by simp [lookupA])).1 (by norm_num)).1,
   ((price_cache_expiry (fun _ _ => none) (fun _ => none) 1860
      ⟨[], [("2330.TW", ⟨0, ⟨10, "n"⟩⟩)]⟩ "2330.TW" ⟨0, ⟨10, "n"⟩⟩
      (by simp [lookupA])).2 (by norm_num)).1⟩

theorem foldl_add_eq {α : Type} (f : α → ℚ) :
    ∀ (l : List α) (init : ℚ), l.foldl (fun a e => a + f e) init = init + (l.map f).sum
  | [], init => by simp
  | x :: xs, init => by
      rw [List.foldl_cons, foldl_add_eq f xs (init + f x)]
      simp [add_assoc]

/-- C4 counterexample: for Buy(2 @ 10, fee 1) then Sell(1 @ 10, fee 0,
tax 0), `total_cost` is 10.5 but the only line's reported `Total_Cost`
is the truncation `int(10.5) = 10`, so the total does not equal the sum
of the per-line `Total_Cost` fields. -/
theorem totals_counterexample :
    ¬ ((getPortfolioSummary (fun _ => 0)
          [⟨"d1", "9999.TW", "x", "Buy", 2, 10, 1, 0⟩,
           ⟨"d2", "9999.TW", "x", "Sell", 1, 10, 0, 0⟩]).2.2.1 =
        (((getPortfolioSummary (fun _ => 0)
          [⟨"d1", "9999.TW", "x", "Buy", 2, 10, 1, 0⟩,
           ⟨"d2", "9999.TW", "x", "Sell", 1, 10, 0, 0⟩]).1.map
            PortfolioLine.Total_Cost).sum : ℚ)) := by
  have hs : ("Sell" : String) ≠ "Buy" := by decide
  norm_num [getPortfolioSummary, reduceTxs, stepStatus, upsertA, applyTx, initStatus,
    mkLine, lineCurrentPrice, lineAvgBuyPrice, lineMarketValue, lineUnrealized,
    lineCurrentCost, pyInt, round2, roundHalfEven, hs, List.cons_ne_nil]

/-- C4 (amended): each returned total equals the sum over the reduced
`stock_status` entries of the corresponding un-truncated per-line value
(current cost, market value, unrealized profit, realized profit); the
per-line report fields are the `int()` truncations of those same values
(so the totals need not equal the sums of the truncated per-line fields);
the empty transaction list yields an empty line list and all-zero totals. -/
theorem totals_are_sums (priceOf : String → ℚ) (txs : List Tx) :
    (getPortfolioSummary priceOf txs).2.2.1 =
      ((reduceTxs txs).map lineCurrentCost).sum ∧
    (getPortfolioSummary priceOf txs).2.2.2.1 =
      ((reduceTxs txs).map (lineMarketValue priceOf)).sum ∧
    (getPortfolioSummary priceOf txs).2.2.2.2.1 =
      ((reduceTxs txs).map (lineUnrealized priceOf)).sum ∧
    (getPortfolioSummary priceOf txs).2.2.2.2.2 =
      ((reduceTxs txs).map (fun e => e.2.realized_profit)).sum ∧
    (getPortfolioSummary priceOf txs).1 = (reduceTxs txs).map (mkLine priceOf) ∧
    (∀ e : String × StockStatus,
        (mkLine priceOf e).Total_Cost = pyInt (lineCurrentCost e) ∧
        (mkLine priceOf e).Market_Value = pyInt (lineMarketValue priceOf e) ∧
        (mkLine priceOf e).Unrealized_Profit = pyInt (lineUnrealized priceOf e) ∧
        (mkLine priceOf e).Realized_Profit = pyInt e.2.realized_profit) ∧
    getPortfolioSummary priceOf [] = ([], 0, 0, 0, 0, 0) := by
  by_cases h : txs = []
  · subst h
    refine ⟨?_, ?_, ?_, ?_, ?_, fun e => ⟨rfl, rfl, rfl, rfl⟩, rfl⟩ <;>
      simp [getPortfolioSummary, reduceTxs]
  · refine ⟨?_, ?_, ?_, ?_, ?_, fun e => ⟨rfl, rfl, rfl, rfl⟩, rfl⟩ <;>
      simp [getPortfolioSummary, h, foldl_add_eq]

theorem totals_are_sums_witness :
    (getPortfolioSummary (fun _ => 7)
        [⟨"d1", "9999.TW", "x", "Buy", 2, 10, 1, 0⟩]).2.2.1 =
      ((reduceTxs [⟨"d1", "9999.TW", "x", "Buy", 2, 10, 1, 0⟩]).map
        lineCurrentCost).sum ∧
    (getPortfolioSummary (fun _ => 7)
        [⟨"d1", "9999.TW", "x", "Buy", 2, 10, 1, 0⟩]).2.2.2.2.2 =
      ((reduceTxs [⟨"d1", "9999.TW", "x", "Buy", 2, 10, 1, 0⟩]).map
        (fun e => e.2.realized_profit)).sum ∧
    getPortfolioSummary (fun _ => 7) [] = ([], 0, 0, 0, 0, 0) :=
  ⟨(totals_are_sums (fun _ => 7) [⟨"d1", "9999.TW", "x", "Buy", 2, 10, 1, 0⟩]).1,
   (totals_are_sums (fun _ => 7) [⟨"d1", "9999.TW", "x", "Buy", 2, 10, 1, 0⟩]).2.2.2.1,
   (totals_are_sums (fun _ => 7) []).2.2.2.2.2.2⟩

/-- C5: a position whose reduced held quantity is not positive is reported
with current price 0, market value 0 and unrealized profit 0, its line is
the same for every price resolver (the resolver's value is never
consulted), its accumulated realized profit is kept in the line
(truncated, like every reported line field); the summary's line list is the
entry-wise image of such lines, and every entry's realized profit —
including exited ones — is summed into `total_realized_profit`. -/
theorem exited_position_not_valued (priceOf priceOf' : String → ℚ)
    (e : String × StockStatus) (h : e.2.quantity ≤ 0) :
    mkLine priceOf e = mkLine priceOf' e ∧
    (mkLine priceOf e).Current_Price = 0 ∧
    (mkLine priceOf e).Market_Value = 0 ∧
    (mkLine priceOf e).Unrealized_Profit = 0 ∧
    (mkLine priceOf e).Realized_Profit = pyInt e.2.realized_profit ∧
    (∀ txs : List Tx,
      (getPortfolioSummary priceOf txs).1 = (reduceTxs txs).map (mkLine priceOf)) ∧
    ∀ txs : List Tx,
      (getPortfolioSummary priceOf txs).2.2.2.2.2 =
        ((reduceTxs txs).map (fun x => x.2.realized_profit)).sum := by
  have hq : ¬ 0 < e.2.quantity := not_lt.mpr h
  have hr0 : round2 0 = 0 := by norm_num [round2, roundHalfEven]
  have hp0 : pyInt 0 = 0 := by norm_num [pyInt]
  refine ⟨?_, ?_, ?_, ?_, rfl, ?_, ?_⟩
  · simp [mkLine, lineCurrentPrice, lineMarketValue, lineUnrealized, hq]
  · simp [mkLine, lineCurrentPrice, hq, hr0]
  · simp [mkLine, lineMarketValue, lineCurrentPrice, hq, hp0]
  · simp [mkLine, lineUnrealized, hq, hp0]
  · intro txs
    by_cases htxs : txs = []
    · simp [htxs, getPortfolioSummary, reduceTxs]
    · simp [getPortfolioSummary, htxs]
  · intro txs
    by_cases htxs : txs = []
    · simp [htxs, getPortfolioSummary, reduceTxs]
    · simp [getPortfolioSummary, htxs, foldl_add_eq]

theorem exited_position_not_valued_witness :
    mkLine (fun _ => 123) ("5566.TW", ⟨"n", -3, 1, 2, 3, 4, 5, 7, false⟩) =
      mkLine (fun _ => 456) ("5566.TW", ⟨"n", -3, 1, 2, 3, 4, 5, 7, false⟩) ∧
    (mkLine (fun _ => 123) ("5566.TW", ⟨"n", -3, 1, 2, 3, 4, 5, 7, false⟩)).Current_Price = 0 ∧
    (mkLine (fun _ => 123) ("5566.TW", ⟨"n", -3, 1, 2, 3, 4, 5, 7, false⟩)).Market_Value = 0 ∧
    (mkLine (fun _ => 123) ("5566.TW", ⟨"n", -3, 1, 2, 3, 4, 5, 7, false⟩)).Unrealized_Profit = 0 ∧
    (mkLine (fun _ => 123) ("5566.TW", ⟨"n", -3, 1, 2, 3, 4, 5, 7, false⟩)).Realized_Profit =
      pyInt (7 : ℚ) ∧
    (getPortfolioSummary (fun _ => 123)
        [⟨"d2", "5566.TW", "n", "Sell", 3, 10, 0, 0⟩]).1 =
      (reduceTxs [⟨"d2", "5566.TW", "n", "Sell", 3, 10, 0, 0⟩]).map
        (mkLine (fun _ => 123)) ∧
    (getPortfolioSummary (fun _ => 123)
        [⟨"d2", "5566.TW", "n", "Sell", 3, 10, 0, 0⟩]).2.2.2.2.2 =
      ((reduceTxs [⟨"d2", "5566.TW", "n", "Sell", 3, 10, 0, 0⟩]).map
        (fun x => x.2.realized_profit)).sum :=
  ⟨(exited_position_not_valued (fun _ => 123) (fun _ => 456) _ (by norm_num)).1,
   (exited_position_not_valued (fun _ => 123) (fun _ => 456) _ (by norm_num)).2.1,
   (exited_position_not_valued (fun _ => 123) (fun _ => 456) _ (by norm_num)).2.2.1,
   (exited_position_not_valued (fun _ => 123) (fun _ => 456) _ (by norm_num)).2.2.2.1,
   (exited_position_not_valued (fun _ => 123) (fun _ => 456)
      ("5566.TW", ⟨"n", -3, 1, 2, 3, 4, 5, 7, false⟩) (by norm_num)).2.2.2.2.1,
   (exited_position_not_valued (fun _ => 123) (fun _ => 456)
      ("5566.TW", ⟨"n", -3, 1, 2, 3, 4, 5, 7, false⟩) (by norm_num)).2.2.2.2.2.1
     [⟨"d2", "5566.TW", "n", "Sell", 3, 10, 0, 0⟩],
   (exited_position_not_valued (fun _ => 123) (fun _ => 456)
      ("5566.TW", ⟨"n", -3, 1, 2, 3, 4, 5, 7, false⟩) (by norm_num)).2.2.2.2.2.2
     [⟨"d2", "5566.TW", "n", "Sell", 3, 10, 0, 0⟩]⟩

/-- The security code of the `i`-th transaction (`""` out of range). -/
def codeAt (txs : List Tx) (i : ℕ) : String :=
  ((txs[i]?).map Tx.Stock_Code).getD ""

/-- The realized profit recorded for `code` in a reduced ledger state. -/
def realizedOf (l : List (String × StockStatus)) (code : String) : ℚ :=
  ((lookupA l code).map StockStatus.realized_profit).getD 0

/-- The realized profit attributed to the `i`-th transaction: its
security's realized profit after the first `i+1` transactions minus the
value after the first `i`. -/
def attributedRealized (txs : List Tx) (i : ℕ) : ℚ :=
  realizedOf (reduceTxs (txs.take (i + 1))) (codeAt txs i) -
    realizedOf (reduceTxs (txs.take i)) (codeAt txs i)

/-- C7: appending one transaction to the ledger never changes the realized
profit attributed to any transaction (in particular any Sell) already in
the list, and the reduced state of the longer list is obtained from the
reduced state of the original list by one further in-order step — state is
never retroactively revised. -/
theorem append_no_retroactive_revision (txs : List Tx) (tx : Tx) (i : ℕ)
    (h : i < txs.length) :
    attributedRealized (txs ++ [tx]) i = attributedRealized txs i ∧
    reduceTxs (txs ++ [tx]) = stepStatus (reduceTxs txs) tx := by
  constructor
  · unfold attributedRealized codeAt
    rw [List.take_append_of_le_length (by omega),
        List.take_append_of_le_length (by omega),
        List.getElem?_append_left h]
  · simp [reduceTxs, List.foldl_append]

theorem append_no_retroactive_revision_witness :
    attributedRealized
        [⟨"d1", "2330.TW", "tsmc", "Buy", 1000, 10, 20, 0⟩,
         ⟨"d2", "2330.TW", "tsmc", "Sell", 1000, 12, 20, 36⟩,
         ⟨"d3", "2330.TW", "tsmc", "Buy", 1000, 99, 20, 0⟩] 1 =
      attributedRealized
        [⟨"d1", "2330.TW", "tsmc", "Buy", 1000, 10, 20, 0⟩,
         ⟨"d2", "2330.TW", "tsmc", "Sell", 1000, 12, 20, 36⟩] 1 ∧
    reduceTxs
        [⟨"d1", "2330.TW", "tsmc", "Buy", 1000, 10, 20, 0⟩,
         ⟨"d2", "2330.TW", "tsmc", "Sell", 1000, 12, 20, 36⟩,
         ⟨"d3", "2330.TW", "tsmc", "Buy", 1000, 99, 20, 0⟩] =
      stepStatus
        (reduceTxs
          [⟨"d1", "2330.TW", "tsmc", "Buy", 1000, 10, 20, 0⟩,
           ⟨"d2", "2330.TW", "tsmc", "Sell", 1000, 12, 20, 36⟩])
        ⟨"d3", "2330.TW", "tsmc", "Buy", 1000, 99, 20, 0⟩ :=
  append_no_retroactive_revision
    [⟨"d1", "2330.TW", "tsmc", "Buy", 1000, 10, 20, 0⟩,
     ⟨"d2", "2330.TW", "tsmc", "Sell", 1000, 12, 20, 36⟩]
    ⟨"d3", "2330.TW", "tsmc", "Buy", 1000, 99, 20, 0⟩ 1 (by norm_num)

/-- Successful validation characterized: an appended transaction can only
be `mkEntryTx` on a non-empty code, a positive quantity that is a multiple
of 1000 and a positive price. -/
theorem addTransaction_ok (f : EntryForm) (tx : Tx)
    (htx : addTransaction f = .ok tx) :
    f.code ≠ "" ∧
      ∃ q p, f.quantity = some q ∧ f.price = some p ∧
        0 < q ∧ pyMod q 1000 = 0 ∧ 0 < p ∧ tx = mkEntryTx f q p := by
  unfold addTransaction at htx
  split at htx
  · simp at htx
  next hc =>
    split at htx
    next hq => simp at htx
    next q hq =>
      split at htx
      · simp at htx
      next hq0 =>
        split at htx
        · simp at htx
        next hm =>
          split at htx
          next hp => simp at htx
          next p hp =>
            split at htx
            · simp at htx
            next hp0 =>
              exact ⟨hc, q, p, hq, hp, lt_of_not_le hq0, not_ne_iff.mp hm,
                lt_of_not_le hp0, (Except.ok.inj htx).symm⟩

/-- C8: through the normal entry path a submission whose quantity is
missing, non-positive or not a multiple of 1000, or whose price is missing
or non-positive, is answered with an error and no transaction is built;
an appended transaction exists only when every check passed; and the
ledger reduction itself re-validates nothing — it processes any
transaction handed to it. -/
theorem entry_validation (f : EntryForm) :
    (f.quantity = none → ∃ msg, addTransaction f = .error msg) ∧
    (∀ q, f.quantity = some q → q ≤ 0 ∨ pyMod q 1000 ≠ 0 →
        ∃ msg, addTransaction f = .error msg) ∧
    (f.price = none → ∃ msg, addTransaction f = .error msg) ∧
    (∀ p, f.price = some p → p ≤ 0 → ∃ msg, addTransaction f = .error msg) ∧
    (∀ tx, addTransaction f = .ok tx →
        f.code ≠ "" ∧
          ∃ q p, f.quantity = some q ∧ f.price = some p ∧
            0 < q ∧ pyMod q 1000 = 0 ∧ 0 < p ∧ tx = mkEntryTx f q p) ∧
    (∀ tx : Tx, lookupA (reduceTxs [tx]) tx.Stock_Code =
        some (applyTx (initStatus tx) tx)) := by
  refine ⟨?_, ?_, ?_, ?_, fun tx htx => addTransaction_ok f tx htx, ?_⟩
  · intro hq
    by_cases hc : f.code = ""
    · exact ⟨"股票代碼不能為空", by simp [addTransaction, hc]⟩
    · exact ⟨"股數必須為正數", by simp [addTransaction, hc, hq]⟩
  · intro q hq hbad
    by_cases hc : f.code = ""
    · exact ⟨"股票代碼不能為空", by simp [addTransaction, hc]⟩
    · by_cases hq0 : q ≤ 0
      · exact ⟨"股數必須為正數", by simp [addTransaction, hc, hq, if_pos hq0]⟩
      · have hm : pyMod q 1000 ≠ 0 := hbad.resolve_left hq0
        exact ⟨"股數必須為1000的倍數",
          by simp [addTransaction, hc, hq, if_neg hq0, if_pos hm]⟩
  · intro hp
    by_cases hc : f.code = ""
    · exact ⟨"股票代碼不能為空", by simp [addTransaction, hc]⟩
    · cases hq : f.quantity with
      | none => exact ⟨"股數必須為正數", by simp [addTransaction, hc, hq]⟩
      | some q =>
          by_cases hq0 : q ≤ 0
          · exact ⟨"股數必須為正數", by simp [addTransaction, hc, hq, if_pos hq0]⟩
          · by_cases hm : pyMod q 1000 ≠ 0
            · exact ⟨"股數必須為1000的倍數",
                by simp [addTransaction, hc, hq, if_neg hq0, if_pos hm]⟩
            · exact ⟨"每股價格必須為正數", by
                simp only [addTransaction, if_neg hc, hq, if_neg hq0, if_neg hm, hp]⟩
  · intro p hp hp0
    by_cases hc : f.code = ""
    · exact ⟨"股票代碼不能為空", by simp [addTransaction, hc]⟩
    · cases hq : f.quantity with
      | none => exact ⟨"股數必須為正數", by simp [addTransaction, hc, hq]⟩
      | some q =>
          by_cases hq0 : q ≤ 0
          · exact ⟨"股數必須為正數", by simp [addTransaction, hc, hq, if_pos hq0]⟩
          · by_cases hm : pyMod q 1000 ≠ 0
            · exact ⟨"股數必須為1000的倍數",
                by simp [addTransaction, hc, hq, if_neg hq0, if_pos hm]⟩
            · exact ⟨"每股價格必須為正數", by
                simp only [addTransaction, if_neg hc, hq, if_neg hq0, if_neg hm, hp,
                  if_pos hp0]⟩
  · intro tx
    simp [reduceTxs, stepStatus, lookupA_upsertA, lookupA]

theorem entry_validation_witness :
    (∃ msg, addTransaction ⟨"d", "2330", "n", "TWSE", "Buy", some 500, some 10⟩ =
        Except.error msg) ∧
    lookupA (reduceTxs [⟨"d", "????", "n", "???", -7, -8, -9, -10⟩])
        (Tx.Stock_Code ⟨"d", "????", "n", "???", -7, -8, -9, -10⟩) =
      some (applyTx (initStatus ⟨"d", "????", "n", "???", -7, -8, -9, -10⟩)
        ⟨"d", "????", "n", "???", -7, -8, -9, -10⟩) :=
  ⟨(entry_validation ⟨"d", "2330", "n", "TWSE", "Buy", some 500, some 10⟩).2.1
      500 rfl (Or.inr (by norm_num [pyMod])),
   (entry_validation ⟨"d", "2330", "n", "TWSE", "Buy", some 500, some 10⟩).2.2.2.2.2
      ⟨"d", "????", "n", "???", -7, -8, -9, -10⟩⟩

/-- C9: any transaction whose type is not exactly `"Buy"` is processed by
the reduction as a Sell — same state update as with type `"Sell"`:
quantity decreased, sell revenue and sell quantity accrued, realized
profit computed — and no transaction is rejected or skipped. -/
theorem non_buy_treated_as_sell (s : StockStatus) (t : Tx) (h : t.Type' ≠ "Buy") :
    applyTx s t = applyTx s { t with Type' := "Sell" } ∧
    (applyTx s t).quantity = s.quantity - t.Quantity ∧
    (applyTx s t).total_sell_revenue =
      s.total_sell_revenue + t.Quantity * t.Price - t.Fee - t.Tax ∧
    (applyTx s t).sell_quantity = s.sell_quantity + t.Quantity ∧
    (applyTx s t).realized_profit = s.realized_profit +
      ((t.Price - (if 0 < s.buy_quantity then s.total_buy_cost / s.buy_quantity else 0)) *
          t.Quantity - t.Fee - t.Tax) ∧
    (applyTx s t).total_buy_cost = s.total_buy_cost ∧
    (applyTx s t).buy_quantity = s.buy_quantity := by
  have hS : ("Sell" : String) ≠ "Buy" := by decide
  simp [applyTx, h, hS]

theorem non_buy_treated_as_sell_witness :
    applyTx ⟨"n", 9, 100, 0, 0, 10, 0, 0, false⟩
        ⟨"d", "2330.TW", "n", "garbage", 2, 30, 1, 1⟩ =
      applyTx ⟨"n", 9, 100, 0, 0, 10, 0, 0, false⟩
        ⟨"d", "2330.TW", "n", "Sell", 2, 30, 1, 1⟩ ∧
    (applyTx ⟨"n", 9, 100, 0, 0, 10, 0, 0, false⟩
        ⟨"d", "2330.TW", "n", "garbage", 2, 30, 1, 1⟩).quantity = 9 - 2 :=
  ⟨(non_buy_treated_as_sell ⟨"n", 9, 100, 0, 0, 10, 0, 0, false⟩
      ⟨"d", "2330.TW", "n", "garbage", 2, 30, 1, 1⟩ (by decide)).1,
   (non_buy_treated_as_sell ⟨"n", 9, 100, 0, 0, 10, 0, 0, false⟩
      ⟨"d", "2330.TW", "n", "garbage", 2, 30, 1, 1⟩ (by decide)).2.1⟩

/-- C10: an entry-path transaction built from validated quantity `q` and
price `p` carries fee `max(20, q*p*0.001425)` and tax `q*p*0.003` exactly
when the type is `"Sell"` and `0` otherwise; hence every entry-path
transaction has fee ≥ 20 and every entry-path Buy has tax 0. -/
theorem entry_fee_tax (f : EntryForm) (q p : ℚ) :
    (mkEntryTx f q p).Fee = max 20 (q * p * (1425 / 1000000)) ∧
    20 ≤ (mkEntryTx f q p).Fee ∧
    (mkEntryTx f q p).Tax = (if f.ty = "Sell" then q * p * (3 / 1000) else 0) ∧
    (f.ty = "Buy" → (mkEntryTx f q p).Tax = 0) ∧
    (∀ tx, addTransaction f = .ok tx →
        tx.Fee = max 20 (tx.Quantity * tx.Price * (1425 / 1000000)) ∧
        20 ≤ tx.Fee ∧ (tx.Type' = "Buy" → tx.Tax = 0)) := by
  have hfee : (mkEntryTx f q p).Fee = max 20 (q * p * (1425 / 1000000)) := by
    simp [mkEntryTx, mul_comm]
  have htax : (mkEntryTx f q p).Tax = (if f.ty = "Sell" then q * p * (3 / 1000) else 0) := by
    simp [mkEntryTx, mul_comm]
  refine ⟨hfee, hfee ▸ le_max_left _ _, htax, ?_, ?_⟩
  · intro hbuy
    have : f.ty ≠ "Sell" := by rw [hbuy]; decide
    simp [mkEntryTx, this]
  · intro tx htx
    obtain ⟨-, q', p', -, -, -, -, -, htx'⟩ := addTransaction_ok f tx htx
    subst htx'
    refine ⟨by simp [mkEntryTx, mul_comm], ?_, ?_⟩
    · rw [show (mkEntryTx f q' p').Fee = max 20 (p' * q' * (1425 / 1000000)) from rfl]
      exact le_max_left _ _
    · intro hbuy
      have hb : f.ty ≠ "Sell" := by
        rw [show (mkEntryTx f q' p').Type' = f.ty from rfl] at hbuy
        rw [hbuy]; decide
      simp [mkEntryTx, hb]

theorem entry_fee_tax_witness :
    (mkEntryTx ⟨"d", "2330", "n", "TWSE", "Buy", some 1000, some 10⟩ 1000 10).Fee =
      max 20 (1000 * 10 * (1425 / 1000000)) ∧
    20 ≤ (mkEntryTx ⟨"d", "2330", "n", "TWSE", "Buy", some 1000, some 10⟩ 1000 10).Fee ∧
    (mkEntryTx ⟨"d", "2330", "n", "TWSE", "Buy", some 1000, some 10⟩ 1000 10).Tax = 0 :=
  ⟨(entry_fee_tax ⟨"d", "2330", "n", "TWSE", "Buy", some 1000, some 10⟩ 1000 10).1,
   (entry_fee_tax ⟨"d", "2330", "n", "TWSE", "Buy", some 1000, some 10⟩ 1000 10).2.1,
   (entry_fee_tax ⟨"d", "2330", "n", "TWSE", "Buy", some 1000, some 10⟩ 1000 10).2.2.2.1 rfl⟩

end StockTracker
